import Mathlib

/-!
Verification development for the sqlds SQL-datasource framework.

The definitions below are a shallow embedding of the Go source:
SQL text is `List Char`, the regex-driven macro interpolator of
`macros.go` is embedded as an executable matcher specialised to the
pattern family produced by `getMacroRegex`, and the retry, health-check,
connection-cache and frame-shaping pipelines of `datasource.go`,
`connector.go`, `query.go` and `health.go` are embedded as pure
state-passing functions with explicit call counters.
-/

set_option autoImplicit false

namespace Sqlds

/-- SQL text and other Go strings are modelled as lists of characters. -/
abbrev Sql := List Char

/-- The newline character, written via its code point. -/
def nlChar : Char := Char.ofNat 10

/-- The single-quote character, written via its code point. -/
def sqChar : Char := Char.ofNat 39

/-- Go `strings.Contains s pat`: does `pat` occur as a contiguous substring? -/
def occursIn (pat : Sql) : Sql → Bool
  | [] => pat.isEmpty
  | c :: cs => pat.isPrefixOf (c :: cs) || occursIn pat cs

/-- Go `strings.Split s ","` on character lists: split on every comma,
never returning an empty list (splitting the empty string yields one
empty field, exactly as in Go). -/
def splitOnComma : Sql → List Sql
  | [] => [[]]
  | c :: cs =>
    if c = ',' then
      [] :: splitOnComma cs
    else
      match splitOnComma cs with
      | g :: gs => (c :: g) :: gs
      | [] => [[c]]

/-- Characters trimmed by Go `strings.TrimSpace` (the ASCII/Latin-1
whitespace set; the exotic Unicode space classes never occur in the
queries modelled here). -/
def isSpaceGo (c : Char) : Bool :=
  c = ' ' || c = Char.ofNat 9 || c = nlChar || c = Char.ofNat 11 ||
  c = Char.ofNat 12 || c = Char.ofNat 13 || c = Char.ofNat 133 || c = Char.ofNat 160

/-- Go `strings.TrimSpace` on a character list. -/
def trimSpace (s : Sql) : Sql :=
  ((s.dropWhile isSpaceGo).reverse.dropWhile isSpaceGo).reverse

/-- The `trimAll` helper of macros.go: trim every element. -/
def trimAll (l : List Sql) : List Sql := l.map trimSpace

/-- One replacement step list for Go `strings.Replace s pat rep -1`
(replace every non-overlapping leftmost occurrence); fuel-driven so the
definition is structural and computable by the kernel. -/
def replaceAllFuel (pat rep : Sql) : Nat → Sql → Sql
  | 0, s => s
  | _ + 1, [] => []
  | fuel + 1, c :: cs =>
    if pat.isPrefixOf (c :: cs) then
      rep ++ replaceAllFuel pat rep fuel (List.drop pat.length (c :: cs))
    else
      c :: replaceAllFuel pat rep fuel cs

/-- Go `strings.Replace s pat rep -1`. The interpolator only ever calls
this with a nonempty pattern (a regex match starting with a dollar
sign); the empty-pattern guard keeps the function total. -/
def replaceAll (s pat rep : Sql) : Sql :=
  if pat.isEmpty then s else replaceAllFuel pat rep s.length s

/-! ## Macro interpolation engine (macros.go) -/

/-- Error value produced by a macro expander. `badArgumentCount` embeds
the Go errors wrapping `ErrorBadArgumentCount`; the numeric rendering of
`fmt.Errorf` is external formatting and is not modelled. `custom` is an
arbitrary expander error. -/
inductive MacroErr where
  | badArgumentCount : MacroErr
  | custom : Sql → MacroErr
deriving DecidableEq, Repr

/-- The query fields consulted by macros.go: the raw SQL, the `RefID`,
`Format`, the `Table`/`Column` macro material and the RFC3339-UTC
renderings of the time range bounds (the rendering itself is done by the
external Go `time` package and is carried here as data). `format`
follows the sqlutil numbering: 0 timeseries, 1 table, 2 logs, 3 trace,
4 multi. -/
structure MQuery where
  rawSQL : Sql
  refID : Sql
  format : Nat
  table : Sql
  column : Sql
  timeFromR : Sql
  timeToR : Sql
deriving DecidableEq, Repr

/-- `Query.WithSQL` from query.go: copy the query, replacing only the
raw SQL. -/
def MQuery.withSQL (q : MQuery) (s : Sql) : MQuery := { q with rawSQL := s }

/-- A macro expander: receives the query (with the in-progress SQL) and
the trimmed argument list. -/
def MacroFunc : Type := MQuery → List Sql → Except MacroErr Sql

/-- Word characters of the RE2 `\b` assertion (ASCII letters, digits and
underscore). -/
def wordChar (c : Char) : Bool := c.isAlphanum || c = '_'

/-- Word-character test lifted to an optional character; out-of-bounds
counts as a non-word position. -/
def wordCharB : Option Char → Bool
  | none => false
  | some c => wordChar c

/-- The literal token `$__name` matched by the head of the macro regex. -/
def macroToken (name : Sql) : Sql := '$' :: '_' :: '_' :: name

/-- RE2 word boundary between the last character of the matched token
and the first character of the remaining text. -/
def wordBoundaryAfter (tok rest : Sql) : Bool :=
  wordCharB tok.getLast? != wordCharB rest.head?

/-- Lazy scan of the optional argument group `\((.*?)\)`: find the first
closing parenthesis, with `.` not crossing a newline. Returns the
captured text and the remainder after the closing parenthesis. -/
def scanArgs : Sql → Option (Sql × Sql)
  | [] => none
  | c :: cs =>
    if c = ')' then some ([], cs)
    else if c = nlChar then none
    else
      match scanArgs cs with
      | some (content, rem) => some (c :: content, rem)
      | none => none

/-- Attempt to match the regex `\$__name\b(?:\((.*?)\))?` at the start of
`t`. On success, returns the full matched text, the capture of the
argument group (the empty string when the group does not participate,
exactly as Go's `FindAllStringSubmatch` reports it), and the remaining
text after the match. -/
def matchMacroAt (name : Sql) (t : Sql) : Option (Sql × Sql × Sql) :=
  let tok := macroToken name
  if tok.isPrefixOf t then
    let rest := t.drop tok.length
    if wordBoundaryAfter tok rest then
      match rest with
      | '(' :: after =>
        match scanArgs after with
        | some (content, rem) => some (tok ++ '(' :: content ++ [')'], content, rem)
        | none => some (tok, [], rest)
      | _ => some (tok, [], rest)
    else none
  else none

/-- Fuel-driven scan for all leftmost non-overlapping matches of the
macro regex, mirroring `FindAllStringSubmatch(rawSQL, -1)`. Each entry
is (full match, argument capture). -/
def findMatchesFuel (name : Sql) : Nat → Sql → List (Sql × Sql)
  | 0, _ => []
  | _ + 1, [] => []
  | fuel + 1, c :: cs =>
    match matchMacroAt name (c :: cs) with
    | some (m, cap, rem) => (m, cap) :: findMatchesFuel name fuel rem
    | none => findMatchesFuel name fuel cs

/-- All matches of the macro regex for `name` in `s`. A match consumes at
least one character, so `s.length` fuel is always sufficient. -/
def findMatches (name s : Sql) : List (Sql × Sql) :=
  findMatchesFuel name s.length s

/-- The argument list handed to an expander for a given capture:
`trimAll(strings.Split(match[1], ","))` from macros.go. -/
def argsOfCapture (cap : Sql) : List Sql := trimAll (splitOnComma cap)

/-- The inner loop of `interpolate`: process the matches of one macro in
order, invoking the expander on the query carrying the in-progress SQL
and globally replacing each full match with the expander output. -/
def processMatches (q : MQuery) (fn : MacroFunc) : List (Sql × Sql) → Sql → Except MacroErr Sql
  | [], sql => .ok sql
  | (m, cap) :: ms, sql =>
    match fn (q.withSQL sql) (argsOfCapture cap) with
    | .error e => .error e
    | .ok res => processMatches q fn ms (replaceAll sql m res)

/-- The outer loop of `interpolate`: for each registered macro, compute
the matches against the current SQL once, then process them. -/
def interpolateGo (q : MQuery) : List (Sql × MacroFunc) → Sql → Except MacroErr Sql
  | [], sql => .ok sql
  | (name, fn) :: rest, sql =>
    match processMatches q fn (findMatches name sql) sql with
    | .error e => .error e
    | .ok sql2 => interpolateGo q rest sql2

/-! ### Default macros (macros.go) -/

/-- Shared failure for a wrong argument count. -/
def badCount : Except MacroErr Sql := .error .badArgumentCount

/-- `macroTimeFilter`: `col >= '<from>' AND col <= '<to>'`. -/
def macroTimeFilter : MacroFunc := fun q args =>
  match args with
  | [col] =>
    .ok (col ++ " >= ".data ++ [sqChar] ++ q.timeFromR ++ [sqChar] ++
         " AND ".data ++ col ++ " <= ".data ++ [sqChar] ++ q.timeToR ++ [sqChar])
  | _ => badCount

/-- `macroTimeFrom`: `col >= '<from>'`. -/
def macroTimeFrom : MacroFunc := fun q args =>
  match args with
  | [col] => .ok (col ++ " >= ".data ++ [sqChar] ++ q.timeFromR ++ [sqChar])
  | _ => badCount

/-- `macroTimeTo`: `col <= '<to>'`. -/
def macroTimeTo : MacroFunc := fun q args =>
  match args with
  | [col] => .ok (col ++ " <= ".data ++ [sqChar] ++ q.timeToR ++ [sqChar])
  | _ => badCount

/-- One `datepart(unit, col)` fragment. -/
def datepart (unit col : Sql) : Sql :=
  "datepart(".data ++ unit ++ ", ".data ++ col ++ [')']

/-- The fall-through cascade of `macroTimeGroup`. -/
def timeGroupCascade (col period : Sql) : Sql :=
  let lv : Nat :=
    if period = "minute".data then 5
    else if period = "hour".data then 4
    else if period = "day".data then 3
    else if period = "month".data then 2
    else if period = "year".data then 1
    else 0
  (if 5 ≤ lv then datepart "minute".data col ++ [','] else []) ++
  (if 4 ≤ lv then datepart "hour".data col ++ [','] else []) ++
  (if 3 ≤ lv then datepart "day".data col ++ [','] else []) ++
  (if 2 ≤ lv then datepart "month".data col ++ [','] else []) ++
  (if 1 ≤ lv then datepart "year".data col else [])

/-- `macroTimeGroup`: requires two arguments. -/
def macroTimeGroup : MacroFunc := fun _ args =>
  match args with
  | [col, period] => .ok (timeGroupCascade col period)
  | _ => badCount

/-- `macroTable`: the query's table name. -/
def macroTable : MacroFunc := fun q _ => .ok q.table

/-- `macroColumn`: the query's column name. -/
def macroColumn : MacroFunc := fun q _ => .ok q.column

/-- `DefaultMacros` of macros.go as an association list, in source
order. Go iterates the map in unspecified order; the list order here is
one admissible schedule. -/
def defaultMacroList : List (Sql × MacroFunc) :=
  [("timeFilter".data, macroTimeFilter),
   ("timeFrom".data, macroTimeFrom),
   ("timeGroup".data, macroTimeGroup),
   ("timeTo".data, macroTimeTo),
   ("table".data, macroTable),
   ("column".data, macroColumn)]

/-- Key membership in an association list of macros. -/
def hasKey (l : List (Sql × MacroFunc)) (k : Sql) : Bool :=
  l.any fun p => p.fst = k

/-- The macro-table merge at the top of `interpolate`: driver macros
plus every default macro the driver does not define. -/
def mergeMacros (driver : List (Sql × MacroFunc)) : List (Sql × MacroFunc) :=
  driver ++ defaultMacroList.filter fun p => !hasKey driver p.fst

/-- `interpolate` from macros.go: merge in the default macros, then for
each macro find all matches and rewrite. -/
def interpolate (driver : List (Sql × MacroFunc)) (q : MQuery) : Except MacroErr Sql :=
  interpolateGo q (mergeMacros driver) q.rawSQL

/-! ## Retry filter (connector.go) -/

/-- `shouldRetry` from connector.go: retry only when the error text
contains one of the `RetryOn` substrings. -/
def shouldRetry (retryOn : List Sql) (err : Sql) : Bool :=
  retryOn.any fun r => occursIn r err

/-! ## Query execution errors

The wrapped sentinel of an error returned by `QueryDB`: Go builds
`fmt.Errorf("%w: %s", errType, ...)`, so `errors.Is` identifies exactly
one wrapped sentinel per error. -/

/-- The sentinel wrapped inside a query-path error. -/
inductive ErrKind where
  | errorQuery | canceled | deadlineExceeded | noResults | otherKind
deriving DecidableEq, Repr

/-- An error observed by the dispatcher: the wrapped sentinel plus the
rendered text. -/
structure QErr where
  kind : ErrKind
  text : Sql
deriving DecidableEq, Repr

/-! ## Query dispatcher retry policy (datasource.go `handleQuery`) -/

/-- Driver settings fields consulted by the retry and health paths. -/
structure RetrySettings where
  retries : Nat
  retryOn : List Sql
  pause : Nat
deriving Repr

/-- How a retry loop ended: early with a result, or by exhausting its
iterations. -/
inductive LoopExit where
  | returned : Except QErr Unit → LoopExit
  | exhausted : LoopExit
deriving Repr

/-- Statistics of one modelled `handleQuery` run: the outcome, the total
number of `QueryDB` invocations and the number of `time.Sleep` pauses. -/
structure RunStats where
  outcome : Except QErr Unit
  execs : Nat
  sleeps : Nat
deriving Repr

/-- The first retry loop of `handleQuery` (entered when the error wraps
`ErrorQuery` and not `context.DeadlineExceeded`): each iteration
reconnects (returning its error on failure), optionally sleeps `Pause`,
and re-runs the query; the loop exits early on reconnect failure or on
success. `n` is the number of `QueryDB` calls made so far. -/
def queryRetryLoop (exec : Nat → Except QErr Unit) (reconnect : Nat → Except QErr Unit)
    (pause : Nat) : Nat → Nat → LoopExit × Nat × Nat
  | 0, _ => (.exhausted, 0, 0)
  | fuel + 1, n =>
    match reconnect n with
    | .error re => (.returned (.error re), 0, 0)
    | .ok _ =>
      let sl : Nat := if 0 < pause then 1 else 0
      match exec n with
      | .ok _ => (.returned (.ok ()), 1, sl)
      | .error _ =>
        let r := queryRetryLoop exec reconnect pause fuel (n + 1)
        (r.1, r.2.1 + 1, r.2.2 + sl)

/-- The second retry loop of `handleQuery` (entered when the error wraps
`context.DeadlineExceeded`): a reconnect failure `continue`s instead of
returning, and no pause is taken. -/
def deadlineRetryLoop (exec : Nat → Except QErr Unit) (reconnect : Nat → Except QErr Unit) :
    Nat → Nat → LoopExit × Nat
  | 0, _ => (.exhausted, 0)
  | fuel + 1, n =>
    match reconnect n with
    | .error _ => deadlineRetryLoop exec reconnect fuel n
    | .ok _ =>
      match exec n with
      | .ok _ => (.returned (.ok ()), 1)
      | .error _ =>
        let r := deadlineRetryLoop exec reconnect fuel (n + 1)
        (r.1, r.2 + 1)

/-- The execute-and-retry section of `handleQuery` in datasource.go.
`exec i` is the outcome of the (i+1)-th `QueryDB` call and `reconnect i`
the outcome of `dbReconnect` before retry `i`. Because the retry loops
shadow `err`, an exhausted loop falls through with the ORIGINAL first
error, which is what the function finally returns. `RetryOn` is never
consulted on this path. -/
def handleQueryRun (rs : RetrySettings) (exec : Nat → Except QErr Unit)
    (reconnect : Nat → Except QErr Unit) : RunStats :=
  match exec 0 with
  | .ok _ => { outcome := .ok (), execs := 1, sleeps := 0 }
  | .error e =>
    if e.kind = .noResults then
      { outcome := .ok (), execs := 1, sleeps := 0 }
    else if e.kind = .errorQuery && !(e.kind = .deadlineExceeded) then
      match queryRetryLoop exec reconnect rs.pause rs.retries 1 with
      | (.returned r, c, s) => { outcome := r, execs := c + 1, sleeps := s }
      | (.exhausted, c, s) =>
        -- the outer `err` still holds the first error; its kind is
        -- `errorQuery` here, so the deadline loop is not entered
        { outcome := .error e, execs := c + 1, sleeps := s }
    else if e.kind = .deadlineExceeded then
      match deadlineRetryLoop exec reconnect rs.retries 1 with
      | (.returned r, c) => { outcome := r, execs := c + 1, sleeps := 0 }
      | (.exhausted, c) => { outcome := .error e, execs := c + 1, sleeps := 0 }
    else
      { outcome := .error e, execs := 1, sleeps := 0 }

/-! ## Health checking

Two health paths exist in the source: `SQLDatasource.CheckHealth` with
`checkWithRetries` (datasource.go) and `HealthChecker.Check` over
`Connector.connectWithRetries` (health.go, connector.go). -/

/-- A `backend.CheckHealthResult`: status (true = OK) and message. -/
structure HealthResult where
  ok : Bool
  message : Sql
deriving DecidableEq, Repr

/-- `SQLDatasource.check`: ping once; a failing ping yields an Error
result carrying the error text, a successful ping the fixed OK
message. Returns the result together with the ping error. -/
def dsCheck (pingRes : Option Sql) : HealthResult × Option Sql :=
  match pingRes with
  | some m => ({ ok := false, message := m }, some m)
  | none => ({ ok := true, message := "Data source is working".data }, none)

/-- `SQLDatasource.checkWithRetries`: repeat `check` up to `Retries`
times, stopping at the first success; the error is dropped at
exhaustion. No `RetryOn` filter and no pause appear on this path.
Returns the last result (none when the loop never ran) and the number
of ping attempts. -/
def dsCheckWithRetries (ping : Nat → Option Sql) : Nat → Nat → Option HealthResult × Nat
  | 0, _ => (none, 0)
  | fuel + 1, i =>
    let r := dsCheck (ping i)
    match r.2 with
    | none => (some r.1, 1)
    | some _ =>
      let rec_ := dsCheckWithRetries ping fuel (i + 1)
      match rec_.1 with
      | none => (some r.1, rec_.2 + 1)
      | some r2 => (some r2, rec_.2 + 1)

/-- `SQLDatasource.CheckHealth`: a single `check` when `Retries = 0`,
otherwise `checkWithRetries`. -/
def sqldsCheckHealth (retries : Nat) (ping : Nat → Option Sql) : Option HealthResult × Nat :=
  if retries = 0 then (some (dsCheck (ping 0)).1, 1)
  else dsCheckWithRetries ping retries 0

/-- `Connector.connectWithRetries`: each iteration reconnects (returning
the reconnect error on failure), pings, breaks on success, breaks when
the error text does not match `RetryOn`, breaks on the last allowed
attempt, and otherwise sleeps `Pause` seconds and continues. Returns
(final error, ping attempts, sleeps). `retries` is the total budget and
`i` the current index; `fuel` = `retries - i` keeps the recursion
structural. -/
def connWithRetries (retries : Nat) (retryOn : List Sql) (pause : Nat)
    (reconnect : Nat → Option Sql) (ping : Nat → Option Sql) :
    Nat → Nat → Option Sql × Nat × Nat
  | 0, _ => (none, 0, 0)
  | fuel + 1, i =>
    match reconnect i with
    | some re => (some re, 0, 0)
    | none =>
      match ping i with
      | none => (none, 1, 0)
      | some msg =>
        if !shouldRetry retryOn msg then (some msg, 1, 0)
        else if i + 1 = retries then (some msg, 1, 0)
        else
          let sl : Nat := if 0 < pause then 1 else 0
          let r := connWithRetries retries retryOn pause reconnect ping fuel (i + 1)
          (r.1, r.2.1 + 1, r.2.2 + sl)

/-- `Connector.Connect`: a single ping when `Retries = 0`, else
`connectWithRetries`. -/
def connectorConnect (retries : Nat) (retryOn : List Sql) (pause : Nat)
    (reconnect : Nat → Option Sql) (ping : Nat → Option Sql) : Option Sql × Nat × Nat :=
  if retries = 0 then
    match ping 0 with
    | none => (none, 1, 0)
    | some m => (some m, 1, 0)
  else connWithRetries retries retryOn pause reconnect ping retries 0

/-- `HealthChecker.Check` from health.go: an Error result carrying the
connect error's text, or the fixed OK message. The `DownstreamError`
wrapper preserves the message text. -/
def healthCheckerCheck (connectErr : Option Sql) : HealthResult :=
  match connectErr with
  | some m => { ok := false, message := m }
  | none => { ok := true, message := "Data source is working".data }

/-! ## Connection cache resolution (datasource.go `getDBConnectionFromQuery`) -/

/-- A cached `dbConnection`: the handle identity and the settings
snapshot identity. -/
structure DbConn where
  dbId : Nat
  settingsId : Nat
deriving DecidableEq, Repr

/-- `defaultKey`: `fmt.Sprintf("%s-%s", uid, "default")`. -/
def defaultKeyM (uid : Sql) : Sql := uid ++ '-' :: "default".data

/-- `keyWithConnectionArgs`: `fmt.Sprintf("%s-%s", uid, args)`. -/
def keyWithArgsM (uid args : Sql) : Sql := uid ++ '-' :: args

/-- Lookup in the connection cache (`sync.Map.Load`). -/
def lookupConn (cache : List (Sql × DbConn)) (k : Sql) : Option DbConn :=
  (cache.find? fun p => p.fst = k).map Prod.snd

/-- Store in the connection cache (`sync.Map.Store`). -/
def storeConn (cache : List (Sql × DbConn)) (k : Sql) (c : DbConn) : List (Sql × DbConn) :=
  if (cache.find? fun p => p.fst = k).isSome then
    cache.map fun p => if p.fst = k then (k, c) else p
  else cache ++ [(k, c)]

/-- Errors of the connection-resolution path. -/
inductive ConnErr where
  | missingMultipleConnectionsConfig
  | missingDBConnection
  | connectFailed : Sql → ConnErr
deriving DecidableEq, Repr

/-- Result of `getDBConnectionFromQuery`: the outcome, the cache after
the call and the number of `driver.Connect` invocations. -/
structure ConnOutcome where
  result : Except ConnErr (Sql × DbConn)
  cache : List (Sql × DbConn)
  connectCalls : Nat
deriving Repr

/-- `getDBConnectionFromQuery` from datasource.go: reject connection
arguments when multiple connections are disabled, fall back to the
default connection, and otherwise open (at most one) new connection
keyed by the raw arguments. `connect` models `driver.Connect` with the
query arguments. -/
def getDBConnectionFromQueryM (enableMulti : Bool) (cache : List (Sql × DbConn))
    (connect : Sql → Except Sql DbConn) (uid connArgs : Sql) : ConnOutcome :=
  if !enableMulti && decide (0 < connArgs.length) then
    { result := .error .missingMultipleConnectionsConfig, cache := cache, connectCalls := 0 }
  else
    let key := defaultKeyM uid
    match lookupConn cache key with
    | none => { result := .error .missingDBConnection, cache := cache, connectCalls := 0 }
    | some dbConn =>
      if !enableMulti || connArgs.length = 0 then
        { result := .ok (key, dbConn), cache := cache, connectCalls := 0 }
      else
        let key2 := keyWithArgsM uid connArgs
        match lookupConn cache key2 with
        | some cached => { result := .ok (key2, cached), cache := cache, connectCalls := 0 }
        | none =>
          match connect connArgs with
          | .error t => { result := .error (.connectFailed t), cache := cache, connectCalls := 1 }
          | .ok db =>
            let newConn : DbConn := { dbId := db.dbId, settingsId := dbConn.settingsId }
            { result := .ok (key2, newConn), cache := storeConn cache key2 newConn,
              connectCalls := 1 }

/-! ## Frames and the query runner (query.go) -/

/-- Frame metadata fields the runner writes: the executed SQL text and
the preferred visualization. -/
structure FrameMeta where
  executedQueryString : Sql
  preferredVis : Sql
deriving DecidableEq, Repr

/-- A data frame as the runner observes it: name, optional metadata, the
row count and whether the frame matches the long time-series schema. -/
structure Frame where
  name : Sql
  meta : Option FrameMeta
  rowCount : Nat
  longSchema : Bool
deriving DecidableEq, Repr

/-- The executed-SQL text recorded in a frame's metadata, when any. -/
def metaExecOf (f : Frame) : Option Sql := f.meta.map fun m => m.executedQueryString

/-- Overwrite the preferred visualization (the metadata is already
populated at every call site). -/
def setVis (f : Frame) (v : Sql) : Frame :=
  { f with meta := f.meta.map fun m => { m with preferredVis := v } }

/-- Errors produced by `getFrames`. `externalErr` carries a failure of
the external long-to-wide / long-to-multi reshapes. -/
inductive FrameErr where
  | noResults
  | externalErr : Sql → FrameErr
deriving DecidableEq, Repr

/-- `getFrames` from query.go: stamp the frame with the query's `RefID`,
the executed SQL text (the query's current raw SQL) and the graph
visualization default, then reshape according to the requested format.
The long-schema reshapes (`data.LongToWide`, and
`fixFrameForLongToMulti` followed by `timeseries.LongToMulti`) live in
external libraries and are passed in as `ltw` and `ltm`. -/
def stampFrame (f0 : Frame) (q : MQuery) : Frame :=
  { f0 with
    name := q.refID
    meta := some { executedQueryString := q.rawSQL, preferredVis := "graph".data } }

def getFramesM (f0 : Frame) (q : MQuery) (ltw : Frame → Except Sql Frame)
    (ltm : Frame → Except Sql (List Frame)) : Except FrameErr (List Frame) :=
  let f1 : Frame := stampFrame f0 q
  if q.format = 4 then
    if f1.rowCount = 0 then .error .noResults
    else if f1.longSchema then
      match ltm f1 with
      | .error t => .error (.externalErr t)
      | .ok fs => .ok fs
    else .ok [f1]
  else if q.format = 1 then .ok [setVis f1 "table".data]
  else if q.format = 2 then .ok [setVis f1 "logs".data]
  else if q.format = 3 then .ok [setVis f1 "trace".data]
  else
    if f1.rowCount = 0 then .error .noResults
    else if f1.longSchema then
      match ltw f1 with
      | .error t => .error (.externalErr t)
      | .ok f2 => .ok [f2]
    else .ok [f1]

/-- An error coming back from `db.QueryContext`: whether the error chain
contains `context.Canceled`, plus the rendered text. -/
structure GoErr where
  wrapsCanceled : Bool
  text : Sql
deriving DecidableEq, Repr

/-- Text of the `context.Canceled` sentinel. -/
def canceledText : Sql := "context canceled".data

/-- Text of the `ErrorQuery` sentinel of errors.go. -/
def errorQueryText : Sql := "error querying the database".data

/-- The sentinel wrapped in an error surfaced by the runner, and whether
the error-source classification marked it downstream. -/
structure RunErr where
  kind : ErrKind
  msg : Sql
  downstream : Bool
deriving DecidableEq, Repr

/-- `getErrorFrameFromQuery`: a single frame named after the `RefID`
whose only metadata is the executed SQL text. -/
def errorFrameFromQueryM (q : MQuery) : List Frame :=
  [{ name := q.refID,
     meta := some { executedQueryString := q.rawSQL, preferredVis := [] },
     rowCount := 0, longSchema := false }]

/-- The rows object after a successful `QueryContext`: the deferred
`rows.Err()` state and the frame the converters produce from the rows. -/
structure MRows where
  rowsErr : Option GoErr
  isNoRows : Bool
  frame : Frame
deriving Repr

/-- The query runner (`DBQuery.Run` / the `query` function of query.go):
classify a `QueryContext` failure, keeping `context.Canceled` distinct
from `ErrorQuery` and appending the driver text to the sentinel text;
check `rows.Err()`; convert the rows into frames. Returns the Go-style
pair (frames, optional error). -/
def runQueryM (q : MQuery) (execRes : Except GoErr MRows)
    (ltw : Frame → Except Sql Frame) (ltm : Frame → Except Sql (List Frame)) :
    List Frame × Option RunErr :=
  match execRes with
  | .error e =>
    let k : ErrKind := if e.wrapsCanceled then .canceled else .errorQuery
    let pre : Sql := if e.wrapsCanceled then canceledText else errorQueryText
    (errorFrameFromQueryM q, some { kind := k, msg := pre ++ ':' :: ' ' :: e.text, downstream := true })
  | .ok rows =>
    match rows.rowsErr with
    | some re =>
      if rows.isNoRows then
        (errorFrameFromQueryM q,
         some { kind := .otherKind, msg := "No results from query: ".data ++ re.text,
                downstream := true })
      else
        (errorFrameFromQueryM q,
         some { kind := .otherKind, msg := "Error response from database: ".data ++ re.text,
                downstream := true })
    | none =>
      match getFramesM rows.frame q ltw ltm with
      | .error fe =>
        (errorFrameFromQueryM q,
         some { kind := (match fe with | .noResults => .noResults | .externalErr _ => .otherKind),
                msg := (match fe with
                        | .noResults => "no results returned from query".data
                        | .externalErr t => t) ++ ": Could not process SQL results".data,
                downstream := false })
      | .ok frames => (frames, none)

/-- The macro-plus-run prefix of `handleQuery`: overwrite the query's
raw SQL with the interpolation output, then run. `execFor` maps the
executed SQL to the database response. Returns the post-interpolation
SQL together with the runner's result. -/
def handleQueryFramesM (driver : List (Sql × MacroFunc)) (q : MQuery)
    (execFor : Sql → Except GoErr MRows) (ltw : Frame → Except Sql Frame)
    (ltm : Frame → Except Sql (List Frame)) :
    Except MacroErr (Sql × List Frame × Option RunErr) :=
  match interpolate driver q with
  | .error me => .error me
  | .ok sql2 => .ok (sql2, runQueryM (q.withSQL sql2) (execFor sql2) ltw ltm)

/-! ## Batch dispatch (datasource.go `QueryData`)

The `Response` aggregator (`NewResponse` / `Set` / `Response`) is not
part of the sources; `respSet` is modelled from the spec: a
concurrency-safe per-`RefID` map, written once per query task. -/

/-- A backend query as the dispatcher sees it: its `RefID` and an opaque
payload. -/
structure BQuery where
  refID : Sql
  payload : Nat
deriving DecidableEq, Repr

/-- Modelled from the spec: `Response.Set` stores a per-`RefID` entry in
the response map (update an existing key, insert otherwise). -/
def respSet {α : Type} (rs : List (Sql × α)) (k : Sql) (v : α) : List (Sql × α) :=
  if (rs.find? fun p => p.fst = k).isSome then
    rs.map fun p => if p.fst = k then (k, v) else p
  else rs ++ [(k, v)]

/-- `QueryData`: one task per query, each storing its result under its
`RefID`. The concurrent fan-out is modelled by a fold; for distinct
`RefID`s every write targets a distinct key, so any interleaving yields
the same map. -/
def queryDataM {α : Type} (handle : BQuery → α) (qs : List BQuery) : List (Sql × α) :=
  qs.foldl (fun rs qq => respSet rs qq.refID (handle qq)) []

/-! ## Test fixtures shared by the theorems -/

/-- The `foo` macro of the spec scenarios: expands to `bar`. -/
def fooFn : MacroFunc := fun _ _ => .ok "bar".data

/-- The `params` macro of the spec scenarios: expands to `bar_` followed
by its first argument. -/
def paramsFn : MacroFunc := fun _ args => .ok ("bar_".data ++ args.headD [])

/-- The driver macro table of the spec scenarios. -/
def demoMacros : List (Sql × MacroFunc) :=
  [("foo".data, fooFn), ("params".data, paramsFn)]

/-- A query with the given raw SQL and neutral remaining fields. -/
def mkQ (s : String) : MQuery :=
  { rawSQL := s.data, refID := "A".data, format := 0, table := [], column := [],
    timeFromR := [], timeToR := [] }

/-- The three-character token that starts every macro match. -/
def dollarUU : Sql := '$' :: '_' :: '_' :: []

/-- Claim C3 counterexample setup: a driver failure whose text matches
nothing in `RetryOn = ["deadline"]`. -/
def execBoom : Nat → Except QErr Unit :=
  fun _ => .error { kind := .errorQuery, text := "connection reset by peer".data }

/-- Reconnect that always succeeds. -/
def rcOk : Nat → Except QErr Unit := fun _ => .ok ()

/-- A ping that always fails with a text matching no retry filter. -/
def pingBoom : Nat → Option Sql := fun _ => some "boom".data

/-- A ping that always times out with `context.DeadlineExceeded`'s text. -/
def pingDl : Nat → Option Sql := fun _ => some "context deadline exceeded".data

/-- A reconnect that always succeeds. -/
def rcNone : Nat → Option Sql := fun _ => none

/-- A table-format query for the C4 witness. -/
def q4 : MQuery := { mkQ "select * from $__foo" with format := 1 }

/-- A clean rows object for the C4 witness. -/
def demoRows : MRows :=
  { rowsErr := none, isNoRows := false,
    frame := { name := [], meta := none, rowCount := 1, longSchema := false } }

/-- The frames the C4 witness pipeline produces. -/
def frames4 : List Frame :=
  [{ name := "A".data,
     meta := some { executedQueryString := "select * from bar".data,
                    preferredVis := "table".data },
     rowCount := 1, longSchema := false }]

/-! ## Theorems -/

/-- Claim C1: macro interpolation rewrites the SQL by finding every
match of each registered macro, invoking the expander on the trimmed
comma-split arguments, and globally replacing the matched text; on the
scenario input with `foo` expanding to `bar` and `params(x)` to
`bar_x`, the result is `select * from bar where bar_a and bar_b`. -/
theorem claim1_macro_replacement :
    interpolate demoMacros
        (mkQ "select * from $__foo() where $__params(a) and $__params(b)") =
      .ok "select * from bar where bar_a and bar_b".data := rfl


/-- Claim C8 counterexample: on `select * from $__foo(` — a macro token
with an unmatched opening parenthesis and no closing bracket —
interpolation SUCCEEDS (the optional argument group simply does not
participate and only `$__foo` is replaced); no bracket-parse error
exists in this code, contradicting the claim that interpolation fails
with ErrorParsingMacroBrackets. -/
theorem claim8_counterexample :
    interpolate demoMacros (mkQ "select * from $__foo(") =
      .ok "select * from bar(".data := rfl

/-- The split of a capture on commas is never the empty list. -/
theorem splitOnComma_ne_nil (s : Sql) : splitOnComma s ≠ [] := by
  cases s with
  | nil => simp [splitOnComma]
  | cons c cs =>
    by_cases h : c = ','
    · simp [splitOnComma, h]
    · simp only [splitOnComma, if_neg h]
      cases hs : splitOnComma cs with
      | nil => simp
      | cons g gs => simp

/-- Claim C10: a macro expander is never invoked with an empty argument
list. The argument list built from any capture is nonempty; the empty
capture — produced both by the parenthesis-less form `$__name` and the
empty-parentheses form `$__name()` — yields exactly the singleton list
containing the empty string. -/
theorem claim10_expander_args :
    (∀ cap : Sql, argsOfCapture cap ≠ []) ∧
    argsOfCapture [] = [[]] ∧
    findMatches "foo".data "$__foo".data = [("$__foo".data, [])] ∧
    findMatches "foo".data "$__foo()".data = [("$__foo()".data, [])] := by
  refine ⟨fun cap => ?_, rfl, rfl, rfl⟩
  unfold argsOfCapture trimAll
  intro h
  exact splitOnComma_ne_nil cap (List.map_eq_nil_iff.mp h)

/-- If `$__` does not start the text, no macro match starts there. -/
theorem matchMacroAt_eq_none (name t : Sql) (h : dollarUU.isPrefixOf t = false) :
    matchMacroAt name t = none := by
  unfold matchMacroAt
  have hp : (macroToken name).isPrefixOf t = false := by
    by_contra hc
    have h2 : (macroToken name).isPrefixOf t = true := by
      cases hb : (macroToken name).isPrefixOf t with
      | false => exact absurd hb hc
      | true => rfl
    have h3 : macroToken name <+: t := List.isPrefixOf_iff_prefix.mp h2
    have h4 : dollarUU <+: macroToken name := by
      refine ⟨name, ?_⟩
      simp [dollarUU, macroToken]
    have h5 : dollarUU <+: t := h4.trans h3
    rw [← List.isPrefixOf_iff_prefix] at h5
    rw [h] at h5
    exact Bool.false_ne_true h5
  simp [hp]

/-- When `$__` does not occur in the text, the whole text has the
head-prefix property along every suffix, so the match scan is empty. -/
theorem findMatchesFuel_eq_nil (name : Sql) (fuel : Nat) (s : Sql)
    (h : occursIn dollarUU s = false) : findMatchesFuel name fuel s = [] := by
  induction fuel generalizing s with
  | zero => rfl
  | succ n ih =>
    cases s with
    | nil => rfl
    | cons c cs =>
      have h2 := h
      unfold occursIn at h2
      rw [Bool.or_eq_false_iff] at h2
      have hm : matchMacroAt name (c :: cs) = none := matchMacroAt_eq_none name (c :: cs) h2.1
      unfold findMatchesFuel
      rw [hm]
      exact ih cs h2.2

/-- A macro pass over text free of `$__` leaves the text unchanged. -/
theorem interpolateGo_no_token (q : MQuery) (macros : List (Sql × MacroFunc)) (s : Sql)
    (h : occursIn dollarUU s = false) : interpolateGo q macros s = .ok s := by
  induction macros with
  | nil => rfl
  | cons p rest ih =>
    obtain ⟨name, fn⟩ := p
    have hf : findMatches name s = [] := findMatchesFuel_eq_nil name s.length s h
    unfold interpolateGo
    rw [hf]
    exact ih

/-- Claim C9: interpolation is idempotent on outputs free of `$__`:
whenever one pass produces a SQL text with no `$__` occurrence, a second
pass over that output (same macro table, same query state) returns it
unchanged. -/
theorem claim9_idempotent (driver : List (Sql × MacroFunc)) (q : MQuery) (s : Sql)
    (h1 : interpolate driver q = .ok s)
    (h2 : occursIn dollarUU s = false) :
    interpolate driver (q.withSQL s) = .ok s :=
  interpolateGo_no_token (q.withSQL s) (mergeMacros driver) s h2

/-- Witness for C9 at a concrete input: one pass rewrites
`x $__foo` to `x bar`, which contains no `$__`, and the second pass
returns it unchanged. -/
theorem claim9_idempotent_witness :
    interpolate demoMacros ((mkQ "x $__foo").withSQL "x bar".data) = .ok "x bar".data :=
  claim9_idempotent demoMacros (mkQ "x $__foo") "x bar".data rfl rfl

/-- Claim C8 (amended) general part: at a macro token followed by an
opening parenthesis that is never closed, the optional argument group
does not participate; the match is the bare token with an empty capture
and the parenthesis stays in the remaining text. -/
theorem matchMacroAt_unclosed_paren (name rest : Sql)
    (h1 : scanArgs rest = none)
    (h2 : wordBoundaryAfter (macroToken name) ('(' :: rest) = true) :
    matchMacroAt name (macroToken name ++ '(' :: rest) =
      some (macroToken name, [], '(' :: rest) := by
  unfold matchMacroAt
  have hp : (macroToken name).isPrefixOf (macroToken name ++ '(' :: rest) = true := by
    rw [List.isPrefixOf_iff_prefix]
    exact List.prefix_append _ _
  have hd : (macroToken name ++ '(' :: rest).drop (macroToken name).length = '(' :: rest :=
    List.drop_left _ _
  simp only [hp, if_true, hd, h2, h1]

/-- Claim C8 (amended): an unmatched opening parenthesis after a macro
token is not an error. The token matches in its parenthesis-less form
(empty capture, parenthesis left in place), and on the scenario input
interpolation succeeds, replacing only the `$__foo` text. -/
theorem claim8_amended (name rest : Sql)
    (h1 : scanArgs rest = none)
    (h2 : wordBoundaryAfter (macroToken name) ('(' :: rest) = true) :
    matchMacroAt name (macroToken name ++ '(' :: rest) =
      some (macroToken name, [], '(' :: rest) ∧
    interpolate demoMacros (mkQ "select * from $__foo(") =
      .ok "select * from bar(".data :=
  ⟨matchMacroAt_unclosed_paren name rest h1 h2, rfl⟩

/-- Witness for the amended C8 at `name = foo`, `rest = ""`. -/
theorem claim8_amended_witness :
    matchMacroAt "foo".data (macroToken "foo".data ++ '(' :: ([] : Sql)) =
      some (macroToken "foo".data, [], '(' :: ([] : Sql)) ∧
    interpolate demoMacros (mkQ "select * from $__foo(") =
      .ok "select * from bar(".data :=
  claim8_amended "foo".data [] rfl rfl

/-- When every execution attempt fails and every reconnect succeeds, the
first retry loop exhausts its budget, making exactly `fuel` further
query executions. -/
theorem queryRetryLoop_exhausts (exec reconnect : Nat → Except QErr Unit) (pause : Nat)
    (hall : ∀ m, ∃ e : QErr, exec m = .error e)
    (hrc : ∀ m, reconnect m = .ok ()) :
    ∀ fuel n, queryRetryLoop exec reconnect pause fuel n =
      (.exhausted, fuel, fuel * (if 0 < pause then 1 else 0)) := by
  intro fuel
  induction fuel with
  | zero => intro n; simp [queryRetryLoop]
  | succ k ih =>
    intro n
    obtain ⟨e, he⟩ := hall n
    unfold queryRetryLoop
    rw [hrc n, he, ih (n + 1)]
    by_cases hp : 0 < pause <;> simp [hp, Nat.succ_mul]

/-- Claim C3 counterexample: with `Retries = 1` and `RetryOn =
["deadline"]`, a driver that always fails with `ErrorQuery`-wrapped text
`connection reset by peer` — which matches no element of `RetryOn` — is
executed 2 times, not exactly once: the query retry path never consults
`RetryOn`. -/
theorem claim3_counterexample :
    shouldRetry ["deadline".data] "connection reset by peer".data = false ∧
    (handleQueryRun { retries := 1, retryOn := ["deadline".data], pause := 0 }
        execBoom rcOk).execs = 2 :=
  ⟨rfl, rfl⟩

/-- Claim C3 (amended): the query retry path applies no `RetryOn`
filter. Against a driver that always fails with an error wrapping
`ErrorQuery` whose text matches no element of `RetryOn`, the execution
is invoked exactly `Retries + 1` times; the single-invocation behaviour
the original claim describes occurs only when the first error wraps
neither `ErrorQuery` nor `DeadlineExceeded` nor `NoResults`. -/
theorem claim3_amended (rs : RetrySettings) (exec reconnect : Nat → Except QErr Unit)
    (e0 : QErr) (h0 : exec 0 = .error e0) (hk : e0.kind = .errorQuery)
    (hall : ∀ m, ∃ e : QErr, exec m = .error e)
    (hrc : ∀ m, reconnect m = .ok ())
    (hnomatch : ∀ m e, exec m = .error e → shouldRetry rs.retryOn e.text = false) :
    (handleQueryRun rs exec reconnect).execs = rs.retries + 1 ∧
    (∀ e1 : QErr, (e1.kind = .canceled ∨ e1.kind = .otherKind) →
      ∀ exec1 : Nat → Except QErr Unit, exec1 0 = .error e1 →
        (handleQueryRun rs exec1 reconnect).execs = 1) := by
  constructor
  · obtain ⟨k0, t0⟩ := e0
    simp only at hk
    subst hk
    unfold handleQueryRun
    rw [h0]
    simp [queryRetryLoop_exhausts exec reconnect rs.pause hall hrc]
  · intro e1 hk1 exec1 h1
    obtain ⟨k1, t1⟩ := e1
    simp only at hk1
    unfold handleQueryRun
    rw [h1]
    rcases hk1 with hk1 | hk1 <;> subst hk1 <;> simp

/-- Witness for the amended C3: with two allowed retries against the
always-failing driver, three executions occur. -/
theorem claim3_amended_witness :
    (handleQueryRun { retries := 2, retryOn := ["deadline".data], pause := 0 }
        execBoom rcOk).execs = 3 :=
  (claim3_amended { retries := 2, retryOn := ["deadline".data], pause := 0 }
    execBoom rcOk _ rfl rfl (fun _ => ⟨_, rfl⟩) (fun _ => rfl)
    (fun m e h => by
      simp only [execBoom, Except.error.injEq] at h
      rw [← h]
      rfl)).1

/-- Claim C5 counterexample: the `SQLDatasource.CheckHealth` path
(`checkWithRetries`) applies no `RetryOn` filter and no pause. With
`Retries = 3`, `RetryOn = ["deadline"]` and a ping always failing with
`boom` — matching no element of `RetryOn` — the ping is still attempted
3 times, where the claimed filter would have stopped after 1. -/
theorem claim5_counterexample :
    shouldRetry ["deadline".data] "boom".data = false ∧
    sqldsCheckHealth 3 pingBoom =
      (some { ok := false, message := "boom".data }, 3) :=
  ⟨rfl, rfl⟩

/-- Claim C5 (amended): `SQLDatasource.checkWithRetries` repeats the
ping up to `Retries` times without consulting `RetryOn` and without
pausing, while the `Connector.connectWithRetries` path used by
`HealthChecker` does apply the `shouldRetry` filter and sleeps `Pause`
between tries. In the timeout scenario (`retries = 5`,
`retryOn = ["deadline"]`, ping always exceeding its deadline) both
paths attempt the ping exactly 5 times and report
`context.DeadlineExceeded`'s text; on the connector path a ping error
matching no element of `RetryOn` stops after a single attempt. -/
theorem claim5_amended (p : Nat) :
    sqldsCheckHealth 5 pingDl =
      (some { ok := false, message := "context deadline exceeded".data }, 5) ∧
    connectorConnect 5 ["deadline".data] p rcNone pingDl =
      (some "context deadline exceeded".data, 5, if 0 < p then 4 else 0) ∧
    healthCheckerCheck (connectorConnect 5 ["deadline".data] p rcNone pingDl).1 =
      { ok := false, message := "context deadline exceeded".data } ∧
    connectorConnect 3 ["deadline".data] p rcNone pingBoom =
      (some "boom".data, 1, 0) := by
  cases p with
  | zero => exact ⟨rfl, rfl, rfl, rfl⟩
  | succ n =>
    refine ⟨rfl, ?_, ?_, ?_⟩
    · show connWithRetries 5 ["deadline".data] (n + 1) rcNone pingDl 5 0 = _
      simp [connWithRetries, rcNone, pingDl, shouldRetry, occursIn, Nat.succ_pos]
    · rfl
    · rfl

/-- Claim C6: when multiple connections are not enabled and the query
carries non-empty connection arguments, resolving the connection fails
with `ErrorMissingMultipleConnectionsConfig`, no connection is
returned, the cache is untouched and the driver's `Connect` is never
invoked. -/
theorem claim6_missing_multi_config (cache : List (Sql × DbConn))
    (connect : Sql → Except Sql DbConn) (uid connArgs : Sql) (h : connArgs ≠ []) :
    getDBConnectionFromQueryM false cache connect uid connArgs =
      { result := .error .missingMultipleConnectionsConfig, cache := cache,
        connectCalls := 0 } := by
  unfold getDBConnectionFromQueryM
  have hl : 0 < connArgs.length := List.length_pos.mpr h
  simp [hl]

/-- Witness for C6 at a concrete input. -/
theorem claim6_missing_multi_config_witness :
    getDBConnectionFromQueryM false [(defaultKeyM "u".data, { dbId := 1, settingsId := 1 })]
        (fun _ => .ok { dbId := 2, settingsId := 1 }) "u".data "args".data =
      { result := .error .missingMultipleConnectionsConfig,
        cache := [(defaultKeyM "u".data, { dbId := 1, settingsId := 1 })],
        connectCalls := 0 } :=
  claim6_missing_multi_config _ _ _ _ (by decide)

/-- Setting a fresh key appends exactly one entry for it. -/
theorem respSet_keys_absent {α : Type} (rs : List (Sql × α)) (k : Sql) (v : α)
    (h : ∀ p ∈ rs, p.fst ≠ k) :
    (respSet rs k v).map Prod.fst = rs.map Prod.fst ++ [k] := by
  unfold respSet
  have hf : (rs.find? fun p => p.fst = k) = none := by
    rw [List.find?_eq_none]
    intro p hp
    simp [h p hp]
  simp [hf]

/-- Folding the per-query stores over queries with pairwise-distinct
`RefID`s, starting from any map disjoint from them, appends exactly one
entry per query. -/
theorem queryData_keys_aux {α : Type} (handle : BQuery → α) (qs : List BQuery) :
    ∀ acc : List (Sql × α),
      (qs.map BQuery.refID).Nodup →
      (∀ q2 ∈ qs, ∀ p ∈ acc, p.fst ≠ q2.refID) →
      (qs.foldl (fun rs qq => respSet rs qq.refID (handle qq)) acc).map Prod.fst =
        acc.map Prod.fst ++ qs.map BQuery.refID := by
  induction qs with
  | nil => intro acc _ _; simp
  | cons q rest ih =>
    intro acc hnd hdisj
    have hstep : (respSet acc q.refID (handle q)).map Prod.fst =
        acc.map Prod.fst ++ [q.refID] :=
      respSet_keys_absent acc q.refID (handle q) fun p hp => hdisj q (by simp) p hp
    have hnd2 : (rest.map BQuery.refID).Nodup := by
      simp only [List.map_cons, List.nodup_cons] at hnd
      exact hnd.2
    have hq : q.refID ∉ rest.map BQuery.refID := by
      simp only [List.map_cons, List.nodup_cons] at hnd
      exact hnd.1
    have hdisj2 : ∀ q2 ∈ rest, ∀ p ∈ respSet acc q.refID (handle q), p.fst ≠ q2.refID := by
      intro q2 hq2 p hp
      have hpfst : p.fst ∈ acc.map Prod.fst ++ [q.refID] := by
        rw [← hstep]
        exact List.mem_map_of_mem Prod.fst hp
      rcases List.mem_append.mp hpfst with hin | hin
      · obtain ⟨p0, hp0, hp0e⟩ := List.mem_map.mp hin
        rw [← hp0e]
        exact hdisj q2 (by simp [hq2]) p0 hp0
      · have : p.fst = q.refID := by simpa using hin
        rw [this]
        intro hcontra
        exact hq (hcontra ▸ List.mem_map_of_mem BQuery.refID hq2)
    calc ((rest.foldl (fun rs qq => respSet rs qq.refID (handle qq))
            (respSet acc q.refID (handle q)))).map Prod.fst
        = (respSet acc q.refID (handle q)).map Prod.fst ++ rest.map BQuery.refID :=
          ih (respSet acc q.refID (handle q)) hnd2 hdisj2
      _ = acc.map Prod.fst ++ (q :: rest).map BQuery.refID := by
          rw [hstep]; simp

/-- Claim C2: for a batch whose queries carry pairwise-distinct
`RefID`s, the response map produced by `QueryData` holds exactly one
entry per input `RefID` and nothing else, regardless of which per-query
results carry errors (the handler is arbitrary). -/
theorem claim2_refid_partition (handle : BQuery → List Frame × Option RunErr)
    (qs : List BQuery) (h : (qs.map BQuery.refID).Nodup) :
    (queryDataM handle qs).map Prod.fst = qs.map BQuery.refID := by
  unfold queryDataM
  simpa using queryData_keys_aux handle qs [] h (by simp)

/-- Witness for C2: two queries, one failing and one succeeding, yield
exactly the two input `RefID`s as response keys. -/
theorem claim2_refid_partition_witness :
    (queryDataM
        (fun qq => if qq.payload = 0 then
            (([] : List Frame), some (RunErr.mk .errorQuery [] true))
          else ([], none))
        [{ refID := "A".data, payload := 0 }, { refID := "B".data, payload := 1 }]).map Prod.fst =
      ["A".data, "B".data] :=
  claim2_refid_partition _ _ (by decide)

/-- Changing the visualization leaves the executed-SQL metadata intact. -/
theorem metaExecOf_setVis (f : Frame) (v : Sql) : metaExecOf (setVis f v) = metaExecOf f := by
  cases f with
  | mk n m rc ls => cases m <;> simp [setVis, metaExecOf]

/-- The stamping step records the query's current raw SQL. -/
theorem metaExecOf_stampFrame (f0 : Frame) (q : MQuery) :
    metaExecOf (stampFrame f0 q) = some q.rawSQL := rfl

/-- Every frame returned by `getFrames` carries the query's current raw
SQL as its executed-SQL metadata, provided the external long-schema
reshapes preserve that field (which `data.LongToWide` does by copying
the metadata pointer). -/
theorem getFramesM_metaExec (f0 : Frame) (q : MQuery)
    (ltw : Frame → Except Sql Frame) (ltm : Frame → Except Sql (List Frame))
    (hltw : ∀ f g, ltw f = .ok g → metaExecOf g = metaExecOf f)
    (hltm : ∀ f l g, ltm f = .ok l → g ∈ l → metaExecOf g = metaExecOf f)
    (frames : List Frame) (h : getFramesM f0 q ltw ltm = .ok frames) :
    ∀ f ∈ frames, metaExecOf f = some q.rawSQL := by
  simp only [getFramesM] at h
  split at h
  · split at h
    · simp at h
    · split at h
      · rename_i hlong
        split at h
        · simp at h
        · rename_i fs hfs
          injection h with h
          subst h
          intro f hf
          rw [hltm (stampFrame f0 q) fs f hfs hf]
          exact metaExecOf_stampFrame f0 q
      · injection h with h
        subst h
        intro f hf
        rw [List.mem_singleton.mp hf]
        exact metaExecOf_stampFrame f0 q
  · split at h
    · injection h with h
      subst h
      intro f hf
      rw [List.mem_singleton.mp hf, metaExecOf_setVis]
      exact metaExecOf_stampFrame f0 q
    · split at h
      · injection h with h
        subst h
        intro f hf
        rw [List.mem_singleton.mp hf, metaExecOf_setVis]
        exact metaExecOf_stampFrame f0 q
      · split at h
        · injection h with h
          subst h
          intro f hf
          rw [List.mem_singleton.mp hf, metaExecOf_setVis]
          exact metaExecOf_stampFrame f0 q
        · split at h
          · simp at h
          · split at h
            · rename_i hlong
              split at h
              · simp at h
              · rename_i g hg
                injection h with h
                subst h
                intro f hf
                rw [List.mem_singleton.mp hf]
                rw [hltw (stampFrame f0 q) g hg]
                exact metaExecOf_stampFrame f0 q
            · injection h with h
              subst h
              intro f hf
              rw [List.mem_singleton.mp hf]
              exact metaExecOf_stampFrame f0 q

/-- A run that ends without error went through a successful execution,
a clean `rows.Err()`, and frame conversion. -/
theorem runQueryM_success (q : MQuery) (execRes : Except GoErr MRows)
    (ltw : Frame → Except Sql Frame) (ltm : Frame → Except Sql (List Frame))
    (frames : List Frame) (h : runQueryM q execRes ltw ltm = (frames, none)) :
    ∃ rows, execRes = .ok rows ∧ rows.rowsErr = none ∧
      getFramesM rows.frame q ltw ltm = .ok frames := by
  cases execRes with
  | error e => simp [runQueryM] at h
  | ok rows =>
    refine ⟨rows, rfl, ?_⟩
    cases hre : rows.rowsErr with
    | some re =>
      simp only [runQueryM, hre] at h
      split at h <;> simp at h
    | none =>
      refine ⟨rfl, ?_⟩
      simp only [runQueryM, hre] at h
      cases hg : getFramesM rows.frame q ltw ltm with
      | error fe => rw [hg] at h; simp at h
      | ok fs =>
        rw [hg] at h
        simp at h
        rw [h]

/-- Claim C4: for every successfully completing query, each frame of the
per-query response records the post-interpolation SQL — not the
submitted raw SQL — as its `ExecutedQueryString`, assuming the external
long-schema reshapes preserve that metadata field. -/
theorem claim4_executed_query_string (driver : List (Sql × MacroFunc)) (q : MQuery)
    (execFor : Sql → Except GoErr MRows)
    (ltw : Frame → Except Sql Frame) (ltm : Frame → Except Sql (List Frame))
    (hltw : ∀ f g, ltw f = .ok g → metaExecOf g = metaExecOf f)
    (hltm : ∀ f l g, ltm f = .ok l → g ∈ l → metaExecOf g = metaExecOf f)
    (sql2 : Sql) (frames : List Frame)
    (hrun : handleQueryFramesM driver q execFor ltw ltm = .ok (sql2, frames, none)) :
    interpolate driver q = .ok sql2 ∧ ∀ f ∈ frames, metaExecOf f = some sql2 := by
  unfold handleQueryFramesM at hrun
  cases hi : interpolate driver q with
  | error e => rw [hi] at hrun; simp at hrun
  | ok s2 =>
    rw [hi] at hrun
    injection hrun with hrun
    rw [Prod.mk.injEq] at hrun
    obtain ⟨hs, hr⟩ := hrun
    subst hs
    obtain ⟨rows, _, _, hg⟩ := runQueryM_success _ _ _ _ _ hr
    exact ⟨rfl, fun f hf => getFramesM_metaExec rows.frame _ ltw ltm
      hltw hltm frames hg f hf⟩

theorem claim4_executed_query_string_witness :
    interpolate demoMacros q4 = .ok "select * from bar".data ∧
    ∀ f ∈ frames4, metaExecOf f = some "select * from bar".data :=
  claim4_executed_query_string demoMacros q4 (fun _ => .ok demoRows)
    (fun f => .ok f) (fun f => .ok [f])
    (fun f g hh => by injection hh with hh; rw [hh])
    (fun f l g hh hm => by
      injection hh with hh
      rw [← hh] at hm
      rw [List.mem_singleton.mp hm])
    "select * from bar".data frames4 rfl

/-- Claim C7: when the driver rejects the execution call, the runner
returns the error frame built from the query together with a typed,
downstream-classified error; cancellation stays distinct: the error
wraps `context.Canceled` when the underlying error chain contains it and
`ErrorQuery` otherwise, with the underlying message appended after the
sentinel text. -/
theorem claim7_error_classification (q : MQuery) (e : GoErr)
    (ltw : Frame → Except Sql Frame) (ltm : Frame → Except Sql (List Frame)) :
    runQueryM q (.error e) ltw ltm =
      (errorFrameFromQueryM q,
       some { kind := if e.wrapsCanceled then .canceled else .errorQuery,
              msg := (if e.wrapsCanceled then canceledText else errorQueryText) ++
                ':' :: ' ' :: e.text,
              downstream := true }) ∧
    errorFrameFromQueryM q ≠ [] ∧
    (∀ f ∈ errorFrameFromQueryM q, metaExecOf f = some q.rawSQL) := by
  refine ⟨?_, by simp [errorFrameFromQueryM], ?_⟩
  · cases hc : e.wrapsCanceled <;> simp [runQueryM, hc]
  · intro f hf
    rw [List.mem_singleton.mp hf]
    rfl


/-- Witness for the amended C5 at `Pause = 1`. -/
theorem claim5_amended_witness :
    sqldsCheckHealth 5 pingDl =
      (some { ok := false, message := "context deadline exceeded".data }, 5) ∧
    connectorConnect 5 ["deadline".data] 1 rcNone pingDl =
      (some "context deadline exceeded".data, 5, if 0 < 1 then 4 else 0) ∧
    healthCheckerCheck (connectorConnect 5 ["deadline".data] 1 rcNone pingDl).1 =
      { ok := false, message := "context deadline exceeded".data } ∧
    connectorConnect 3 ["deadline".data] 1 rcNone pingBoom =
      (some "boom".data, 1, 0) :=
  claim5_amended 1

/-- Witness for C7 at a concrete non-cancelled driver rejection. -/
theorem claim7_error_classification_witness :
    runQueryM (mkQ "select 1") (.error { wrapsCanceled := false, text := "boom".data })
        (fun f => .ok f) (fun f => .ok [f]) =
      (errorFrameFromQueryM (mkQ "select 1"),
       some { kind := .errorQuery, msg := errorQueryText ++ ':' :: ' ' :: "boom".data,
              downstream := true }) :=
  (claim7_error_classification (mkQ "select 1")
    { wrapsCanceled := false, text := "boom".data } (fun f => .ok f) (fun f => .ok [f])).1

/-- Witness for C10 at a concrete two-argument capture. -/
theorem claim10_expander_args_witness :
    argsOfCapture "a, b".data ≠ [] ∧ argsOfCapture [] = [[]] :=
  ⟨claim10_expander_args.1 "a, b".data, claim10_expander_args.2.1⟩

end Sqlds
